import Mathlib

/-
Verification of the platform-starter provisioning tool
(cmd/platform-starter/main.go) against its specification.

The program is modelled as a shallow embedding: every operation is a
function `S → S × result` over an explicit world state `S` holding the
filesystem, the repository state produced by version-control commands,
the number of interactive prompts shown so far, and an event trace.
`os.Exit(n)` is modelled by the short-circuiting result `Res.exited n`,
threaded through sequencing exactly where the Go code calls it.
Environmental inputs (which executables PATH resolves, whether an
external command succeeds, the user's answers to prompts, the CLI flags)
are packaged in an `Env` record fixed for the whole run.
-/

namespace PlatformStarter

/-- Paths are sequences of components; `filepath.Join(base, segs...)` is
list append. -/
abbrev Path := List String

/-- Filesystem entry: a regular file with its byte content and permission
mode, or a directory. -/
inductive Entry where
  | file (bytes : String) (mode : Nat)
  | dir
deriving DecidableEq, Repr

/-- Filesystem model: an association list of entries, plus fault-injection
sets naming the paths at which `os.Remove` / `ioutil.WriteFile` fail. -/
structure FS where
  entries : List (Path × Entry)
  writeFails : List Path
  removeFails : List Path
deriving DecidableEq, Repr

/-- `os.Stat`: look up a path. `none` models the IsNotExist error. -/
def FS.stat (s : FS) (p : Path) : Option Entry :=
  (s.entries.find? (fun pe => pe.1 == p)).map Prod.snd

/-- Replace or create the entry at a path. -/
def FS.setEntry (s : FS) (p : Path) (e : Entry) : FS :=
  { s with entries := (p, e) :: s.entries.filter (fun pe => !(pe.1 == p)) }

/-- Delete the entry at a path. -/
def FS.removeEntry (s : FS) (p : Path) : FS :=
  { s with entries := s.entries.filter (fun pe => !(pe.1 == p)) }

/-- Observable events of a run, in order: PATH probes, external command
invocations, interactive prompts (with the user's answer), and filesystem
writes/removals. -/
inductive Event where
  | lookPathEv (name : String)
  | runCmd (bin : String) (args : List String)
  | promptEv (answer : Bool)
  | fsWrite (p : Path)
  | fsRemove (p : Path)
deriving DecidableEq, Repr

/-- Modelled from the spec: a commit created by the version-control tool
records the fixed message and the files staged at commit time. -/
structure GitCommit where
  message : String
  files : List (Path × Entry)
deriving DecidableEq, Repr

/-- Modelled from the spec: state of the repository managed by the
external version-control tool. -/
structure GitRepoState where
  root : Path
  staged : List (Path × Entry)
  commits : List GitCommit
deriving DecidableEq, Repr

/-- World state threaded through the whole run. -/
structure S where
  fs : FS
  git : Option GitRepoState
  promptCount : Nat
  trace : List Event
deriving DecidableEq, Repr

/-- Result of an operation: a value, or process termination with an exit
code (`os.Exit`). -/
inductive Res (α : Type) where
  | ok (a : α)
  | exited (code : Nat)
deriving DecidableEq, Repr

/-- Go `error` values are modelled as `Option Err` (`none` = nil). -/
abbrev Err := String

/-- The asset store (generated bindata, out of scope of the source):
each asset carries opaque bytes and a recorded file mode. -/
structure asset where
  bytes : String
  mode : Nat
deriving DecidableEq, Repr

/-- Modelled from the spec: the embedded asset store is specified only at
its interface; one asset per bindata accessor of the source. -/
structure AssetStore where
  configCsscombJson : asset
  configEslintrcJs : asset
  configEditorconfig : asset
  configGitignore : asset
  hooksPreCommit : asset
deriving DecidableEq, Repr

/-- Environment of a run: PATH resolution, external command outcomes, the
user's prompt answers (by prompt index), the CLI flags `--npm` and
`--dir`, the working directory, and the asset store. -/
structure Env where
  path : String → Bool
  cmdOk : String → List String → Bool
  confirm : Nat → Bool
  npm : Bool
  root : Path
  dir : Path
  store : AssetStore

/-- The `requirement` struct of the source. -/
structure requirement where
  pkg : String
  binary : Bool
deriving DecidableEq, Repr

/-- The static requirement list of the source. -/
def requirements : List requirement :=
  [ ⟨"csscomb", true⟩,
    ⟨"editorconfig-tools", true⟩,
    ⟨"eslint", true⟩,
    ⟨"prettier", true⟩,
    ⟨"svgo", true⟩,
    ⟨"eslint-plugin-prettier", false⟩,
    ⟨"eslint-config-airbnb-base", false⟩,
    ⟨"eslint-plugin-import", false⟩ ]

/-- The `mkPath` helper of the source. -/
def mkPath (args : List String) : Path := args

/-- The `file` struct of the source: an asset, destination segments, and
the anchoring flag. -/
structure file where
  asset : asset
  dest : List String
  fromRoot : Bool
deriving DecidableEq, Repr

/-- `file.path`: join the destination segments onto `root` or `wd`
according to `fromRoot`. -/
def file.path (f : file) (root wd : Path) : Path :=
  if f.fromRoot then root ++ f.dest else wd ++ f.dest

/-- The static `files` list of the source. -/
def files (st : AssetStore) : List file :=
  [ { asset := st.configCsscombJson, dest := mkPath [".csscomb.json"], fromRoot := false },
    { asset := st.configEslintrcJs, dest := mkPath [".eslintrc.js"], fromRoot := false },
    { asset := st.configEditorconfig, dest := mkPath [".editorconfig"], fromRoot := true } ]

/-- The `precommitHook` file of the source. -/
def precommitHook (st : AssetStore) : file :=
  { asset := st.hooksPreCommit, dest := mkPath [".git", "hooks", "pre-commit"], fromRoot := true }

/-- The `gitignore` file of the source. -/
def gitignore (st : AssetStore) : file :=
  { asset := st.configGitignore, dest := mkPath [".gitignore"], fromRoot := false }

/-- Append an event to the trace. -/
def emitE (s : S) (e : Event) : S := { s with trace := s.trace ++ [e] }

/-- `exec.LookPath`: probe PATH for an executable name; returns the
resolved binary on success. -/
def lookPath (env : Env) (name : String) (s : S) : S × Option String :=
  (emitE s (Event.lookPathEv name),
   if env.path name then some name else none)

/-- Files of the filesystem lying under `root` but not under its
version-control metadata directory. -/
def trackedFiles (fsys : FS) (root : Path) : List (Path × Entry) :=
  fsys.entries.filter (fun pe =>
    (match pe.2 with | Entry.file _ _ => true | Entry.dir => false)
    && pe.1.take root.length == root
    && !(pe.1.take (root.length + 1) == root ++ [".git"]))

/-- Modelled from the spec: the effect of a successful external
version-control command on the world, run in the process working
directory. `init` creates the metadata directory and a fresh repository,
`add -A` stages every tracked file, `commit` records one commit with the
staged files. Commands of other binaries (the package managers) have no
modelled filesystem effect. -/
def gitEffect (cwd : Path) (bin : String) (args : List String) (s : S) : S :=
  if bin == "git" then
    match args with
    | ["init"] =>
        { s with fs := s.fs.setEntry (cwd ++ [".git"]) Entry.dir,
                 git := some { root := cwd, staged := [], commits := [] } }
    | ["add", "-A"] =>
        match s.git with
        | some g => { s with git := some { g with staged := trackedFiles s.fs g.root } }
        | none => s
    | ["commit", "-am", msg] =>
        match s.git with
        | some g =>
            { s with git := some { g with staged := [],
                                          commits := g.commits ++ [⟨msg, g.staged⟩] } }
        | none => s
    | _ => s
  else s

/-- The `cmd` helper of the source: run an external command (blocking),
returning its error status; on success the command's external effect is
applied. -/
def cmd (env : Env) (bin : String) (args : List String) (s : S) : S × Option Err :=
  let s' := emitE s (Event.runCmd bin args)
  if env.cmdOk bin args then (gitEffect env.root bin args s', none)
  else (s', some "command failed")

/-- The npm half of `install`: probe for npm; if found run
`npm install -g <program>`, otherwise abort the process with exit 1. -/
def installNpmPart (env : Env) (program : String) (s : S) : S × Res (Option Err) :=
  match lookPath env "npm" s with
  | (s1, some npm) =>
      let r := cmd env npm ["install", "-g", program] s1
      (r.1, Res.ok r.2)
  | (s1, none) => (s1, Res.exited 1)

/-- The `install` function of the source: unless `--npm` forces the
fallback, probe for yarn and use `yarn global add`; otherwise fall back to
npm, aborting the process when neither manager is found. -/
def install (env : Env) (program : String) (npmForce : Bool) (s : S) : S × Res (Option Err) :=
  if npmForce = false then
    match lookPath env "yarn" s with
    | (s1, some yarn) =>
        let r := cmd env yarn ["global", "add", program] s1
        (r.1, Res.ok r.2)
    | (s1, none) => installNpmPart env program s1
  else installNpmPart env program s

/-- The `ensureInstalled` function of the source: binary requirements are
probed on PATH and installed only when absent; package requirements are
always installed; any install error exits the process with code 1. -/
def ensureInstalled (env : Env) (r : requirement) (npm : Bool) (s : S) : S × Res Unit :=
  if r.binary then
    match lookPath env r.pkg s with
    | (s1, some _) => (s1, Res.ok ())
    | (s1, none) =>
        match install env r.pkg npm s1 with
        | (s2, Res.ok (some _)) => (s2, Res.exited 1)
        | (s2, Res.ok none) => (s2, Res.ok ())
        | (s2, Res.exited c) => (s2, Res.exited c)
  else
    match install env r.pkg npm s with
    | (s2, Res.ok (some _)) => (s2, Res.exited 1)
    | (s2, Res.ok none) => (s2, Res.ok ())
    | (s2, Res.exited c) => (s2, Res.exited c)

/-- `prompt.Confirm`: show the overwrite prompt; the user's answer is the
environment's answer for the current prompt index. -/
def promptConfirm (env : Env) (s : S) : S × Bool :=
  let ans := env.confirm s.promptCount
  ({ s with promptCount := s.promptCount + 1,
            trace := s.trace ++ [Event.promptEv ans] }, ans)

/-- `os.Remove` on the model filesystem, honoring the fault-injection
set. -/
def removeFile (p : Path) (s : S) : S × Option Err :=
  if s.fs.removeFails.contains p then (s, some "remove failed")
  else ({ s with fs := s.fs.removeEntry p,
                 trace := s.trace ++ [Event.fsRemove p] }, none)

/-- `ioutil.WriteFile` on the model filesystem, honoring the
fault-injection set. -/
def writeFile (p : Path) (bytes : String) (mode : Nat) (s : S) : S × Option Err :=
  if s.fs.writeFails.contains p then (s, some "write failed")
  else ({ s with fs := s.fs.setEntry p (Entry.file bytes mode),
                 trace := s.trace ++ [Event.fsWrite p] }, none)

/-- The `copyFile` function of the source: stat the destination; when it
exists, prompt; a declined prompt skips silently; an accepted prompt
removes the old file first; finally the asset bytes are written with the
asset's mode. -/
def copyFile (env : Env) (root pwd : Path) (f : file) (s : S) : S × Option Err :=
  let p := f.path root pwd
  match s.fs.stat p with
  | some _ =>
      match promptConfirm env s with
      | (s1, false) => (s1, none)
      | (s1, true) =>
          match removeFile p s1 with
          | (s2, some e) => (s2, some ("unable to remove file: " ++ e))
          | (s2, none) => writeFile p f.asset.bytes f.asset.mode s2
  | none => writeFile p f.asset.bytes f.asset.mode s

/-- The fixed commit message of the source. -/
def commitMessage : String := "'initial commit with platform-starter config'"

/-- The `initializeGitRepo` function of the source: init, stage all,
commit, failing on the first command that errors. -/
def initializeGitRepo (env : Env) (s : S) : S × Option Err :=
  match cmd env "git" ["init"] s with
  | (s1, some e) => (s1, some e)
  | (s1, none) =>
      match cmd env "git" ["add", "-A"] s1 with
      | (s2, some e) => (s2, some ("unable to add files to repo: " ++ e))
      | (s2, none) =>
          match cmd env "git" ["commit", "-am", commitMessage] s2 with
          | (s3, some e) => (s3, some ("unable to commit: " ++ e))
          | (s3, none) => (s3, none)

/-- The `isDir` helper of the source. -/
def isDir (s : S) (p : Path) : Bool :=
  match s.fs.stat p with
  | some Entry.dir => true
  | _ => false

/-- The `exists` helper of the source. -/
def existsPath (s : S) (p : Path) : Bool := (s.fs.stat p).isSome

/-- The requirements loop of `run`, in declaration order; an exit stops the
iteration. -/
def installRequirements (env : Env) : List requirement → S → S × Res Unit
  | [], s => (s, Res.ok ())
  | r :: rs, s =>
      match ensureInstalled env r env.npm s with
      | (s1, Res.ok ()) => installRequirements env rs s1
      | (s1, Res.exited c) => (s1, Res.exited c)

/-- The assets loop of `run`: copy each file, exiting with code 1 on the
first error. -/
def copyAssets (env : Env) (root pwd : Path) : List file → S → S × Res Unit
  | [], s => (s, Res.ok ())
  | f :: rest, s =>
      match copyFile env root pwd f s with
      | (s1, some _) => (s1, Res.exited 1)
      | (s1, none) => copyAssets env root pwd rest s1

/-- The repository-bootstrap step of `run` (lines 123-128): initialize the
repository only when no `.git` directory exists at the root, exiting with
code 1 on error. -/
def ensureRepo (env : Env) (s : S) : S × Res Unit :=
  if isDir s (env.root ++ [".git"]) = false then
    match initializeGitRepo env s with
    | (s1, some _) => (s1, Res.exited 1)
    | (s1, none) => (s1, Res.ok ())
  else (s, Res.ok ())

/-- The `run` function of the source: install the requirements, deploy
the default `.gitignore` when absent, copy the config assets, bootstrap
the repository when needed, and install the pre-commit hook. Every stage
failure exits with code 1. -/
def run (env : Env) (s : S) : S × Res Unit :=
  match installRequirements env requirements s with
  | (s1, Res.exited c) => (s1, Res.exited c)
  | (s1, Res.ok ()) =>
      match
        (if existsPath s1 (env.dir ++ [".gitignore"]) = false then
          match copyFile env env.root env.dir (gitignore env.store) s1 with
          | (s2, some _) => (s2, Res.exited 1)
          | (s2, none) => (s2, Res.ok ())
        else (s1, Res.ok ())) with
      | (s2, Res.exited c) => (s2, Res.exited c)
      | (s2, Res.ok ()) =>
          match copyAssets env env.root env.dir (files env.store) s2 with
          | (s3, Res.exited c) => (s3, Res.exited c)
          | (s3, Res.ok ()) =>
              match ensureRepo env s3 with
              | (s4, Res.exited c) => (s4, Res.exited c)
              | (s4, Res.ok ()) =>
                  match copyFile env env.root env.dir (precommitHook env.store) s4 with
                  | (s5, some _) => (s5, Res.exited 1)
                  | (s5, none) => (s5, Res.ok ())

/-- External command invocations recorded in a trace. -/
def cmdEvents (t : List Event) : List (String × List String) :=
  t.filterMap (fun e => match e with
    | Event.runCmd b a => some (b, a)
    | _ => none)

/-- Prompt events recorded in a trace. -/
def promptEvents (t : List Event) : List Bool :=
  t.filterMap (fun e => match e with
    | Event.promptEv b => some b
    | _ => none)

/-- Filesystem mutation events (writes and removals) recorded in a
trace. -/
def writeEvents (t : List Event) : List Event :=
  t.filter (fun e => match e with
    | Event.fsWrite _ => true
    | Event.fsRemove _ => true
    | _ => false)

/-- Sequential composition of two stages: the second begins only when the
first returns without terminating the process. -/
def seqStage (a b : S → S × Res Unit) (s : S) : S × Res Unit :=
  match a s with
  | (s1, Res.ok ()) => b s1
  | (s1, Res.exited c) => (s1, Res.exited c)

/-- The gitignore stage of `run` (lines 106-112), as a standalone stage
function. -/
def stageGitignore (env : Env) (s : S) : S × Res Unit :=
  if existsPath s (env.dir ++ [".gitignore"]) = false then
    match copyFile env env.root env.dir (gitignore env.store) s with
    | (s1, some _) => (s1, Res.exited 1)
    | (s1, none) => (s1, Res.ok ())
  else (s, Res.ok ())

/-- The asset-copy stage of `run` (lines 114-121), as a standalone stage
function. -/
def stageAssets (env : Env) (s : S) : S × Res Unit :=
  copyAssets env env.root env.dir (files env.store) s

/-- The pre-commit-hook stage of `run` (lines 130-134), as a standalone
stage function. -/
def stageHook (env : Env) (s : S) : S × Res Unit :=
  match copyFile env env.root env.dir (precommitHook env.store) s with
  | (s1, some _) => (s1, Res.exited 1)
  | (s1, none) => (s1, Res.ok ())

/-- A concrete asset store used for evaluation. -/
def store0 : AssetStore :=
  ⟨⟨"csscomb-bytes", 420⟩, ⟨"eslintrc-bytes", 420⟩, ⟨"editorconfig-bytes", 420⟩,
   ⟨"gitignore-bytes", 420⟩, ⟨"precommit-bytes", 493⟩⟩

/-- The empty initial world state. -/
def s0 : S := ⟨⟨[], [], []⟩, none, 0, []⟩

/-- A concrete environment resolving nothing on PATH, with all external
commands succeeding and the prompt always declined. -/
def baseEnv : Env :=
  { path := fun _ => false,
    cmdOk := fun _ _ => true,
    confirm := fun _ => false,
    npm := false,
    root := ["root"],
    dir := ["dir"],
    store := store0 }

/-- Environment where only yarn is resolvable. -/
def envYarn : Env := { baseEnv with path := fun n => n == "yarn" }

/-- Environment where only eslint is resolvable. -/
def envEslint : Env := { baseEnv with path := fun n => n == "eslint" }

/-- Environment where only npm is resolvable. -/
def envNpmOnly : Env := { baseEnv with path := fun n => n == "npm" }

/-- Environment where npm and yarn are both resolvable. -/
def envNpmYarn : Env :=
  { baseEnv with path := fun n => n == "npm" || n == "yarn" }

/-- The names of the static requirement list. -/
def reqNames : List String :=
  ["csscomb", "editorconfig-tools", "eslint", "prettier", "svgo",
   "eslint-plugin-prettier", "eslint-config-airbnb-base", "eslint-plugin-import"]

/-- Environment where exactly the requirement names are resolvable and no
package manager is. -/
def envAll8 : Env := { baseEnv with path := fun n => reqNames.contains n }

/-- Environment where the requirement names and yarn are resolvable. -/
def envFull : Env :=
  { baseEnv with path := fun n => n == "yarn" || reqNames.contains n }

/-- A sample file spec targeting `.eslintrc.js` in the working
directory. -/
def fileSample : file :=
  { asset := ⟨"new-bytes", 420⟩, dest := [".eslintrc.js"], fromRoot := false }

/-- A state in which the sample destination already holds a file. -/
def sWithFile : S :=
  { s0 with fs := ⟨[(["dir", ".eslintrc.js"], Entry.file "old-bytes" 420)], [], []⟩ }

/-- Like `sWithFile`, but the write at the sample destination is set to
fail. -/
def sWriteFail : S :=
  { s0 with fs := ⟨[(["dir", ".eslintrc.js"], Entry.file "old-bytes" 420)],
                   [["dir", ".eslintrc.js"]], []⟩ }

/-- Environment whose user accepts every prompt. -/
def envAccept : Env := { baseEnv with confirm := fun _ => true }

/-- State after deploying the default `.gitignore` to an absent
destination. -/
def sAfterGitignore (env : Env) (s1 : S) : S :=
  { s1 with
    fs := s1.fs.setEntry (env.dir ++ [".gitignore"])
            (Entry.file env.store.configGitignore.bytes env.store.configGitignore.mode),
    trace := s1.trace ++ [Event.fsWrite (env.dir ++ [".gitignore"])] }

/-- State after additionally deploying `.csscomb.json` to an absent
destination. -/
def sAfterCss (env : Env) (s1 : S) : S :=
  { sAfterGitignore env s1 with
    fs := (sAfterGitignore env s1).fs.setEntry (env.dir ++ [".csscomb.json"])
            (Entry.file env.store.configCsscombJson.bytes env.store.configCsscombJson.mode),
    trace := (sAfterGitignore env s1).trace
             ++ [Event.fsWrite (env.dir ++ [".csscomb.json"])] }

/-- State after additionally deploying `.eslintrc.js` to an absent
destination. -/
def sAfterEsl (env : Env) (s1 : S) : S :=
  { sAfterCss env s1 with
    fs := (sAfterCss env s1).fs.setEntry (env.dir ++ [".eslintrc.js"])
            (Entry.file env.store.configEslintrcJs.bytes env.store.configEslintrcJs.mode),
    trace := (sAfterCss env s1).trace
             ++ [Event.fsWrite (env.dir ++ [".eslintrc.js"])] }

/-- State after additionally deploying `.editorconfig` (root-anchored) to
an absent destination. -/
def sAfterAssets (env : Env) (s1 : S) : S :=
  { sAfterEsl env s1 with
    fs := (sAfterEsl env s1).fs.setEntry (env.root ++ [".editorconfig"])
            (Entry.file env.store.configEditorconfig.bytes env.store.configEditorconfig.mode),
    trace := (sAfterEsl env s1).trace
             ++ [Event.fsWrite (env.root ++ [".editorconfig"])] }

/-- State after a successful repository bootstrap: the metadata directory
exists, and the repository holds exactly the one fixed-message commit with
the files tracked at commit time. -/
def sAfterRepo (env : Env) (s : S) : S :=
  { s with
    fs := s.fs.setEntry (env.root ++ [".git"]) Entry.dir,
    git := some ⟨env.root, [],
      [⟨commitMessage,
        trackedFiles (s.fs.setEntry (env.root ++ [".git"]) Entry.dir) env.root⟩]⟩,
    trace := s.trace ++ [Event.runCmd "git" ["init"], Event.runCmd "git" ["add", "-A"],
                         Event.runCmd "git" ["commit", "-am", commitMessage]] }

/-- State after deploying the pre-commit hook to an absent destination. -/
def sAfterHook (env : Env) (sR : S) : S :=
  { sR with
    fs := sR.fs.setEntry (env.root ++ [".git", "hooks", "pre-commit"])
            (Entry.file env.store.hooksPreCommit.bytes env.store.hooksPreCommit.mode),
    trace := sR.trace ++ [Event.fsWrite (env.root ++ [".git", "hooks", "pre-commit"])] }

@[simp]
lemma emitE_fs (s : S) (e : Event) : (emitE s e).fs = s.fs := rfl

@[simp]
lemma emitE_promptCount (s : S) (e : Event) : (emitE s e).promptCount = s.promptCount := rfl

@[simp]
lemma emitE_git (s : S) (e : Event) : (emitE s e).git = s.git := rfl

@[simp]
lemma emitE_trace (s : S) (e : Event) : (emitE s e).trace = s.trace ++ [e] := rfl

@[simp]
lemma setEntry_writeFails (fsys : FS) (p : Path) (e : Entry) :
    (fsys.setEntry p e).writeFails = fsys.writeFails := rfl

@[simp]
lemma setEntry_removeFails (fsys : FS) (p : Path) (e : Entry) :
    (fsys.setEntry p e).removeFails = fsys.removeFails := rfl

@[simp]
lemma removeEntry_writeFails (fsys : FS) (p : Path) :
    (fsys.removeEntry p).writeFails = fsys.writeFails := rfl

@[simp]
lemma removeEntry_removeFails (fsys : FS) (p : Path) :
    (fsys.removeEntry p).removeFails = fsys.removeFails := rfl

lemma beq_false_of_ne {α : Type} [BEq α] [LawfulBEq α] {a b : α} (h : ¬(a = b)) :
    (a == b) = false := by
  cases hab : a == b
  · rfl
  · exact absurd (eq_of_beq hab) h

lemma find?_key_filter_ne (l : List (Path × Entry)) (p q : Path) (h : ¬(q = p)) :
    (l.filter (fun pe => !(pe.1 == p))).find? (fun pe => pe.1 == q)
      = l.find? (fun pe => pe.1 == q) := by
  induction l with
  | nil => rfl
  | cons a t ih =>
      by_cases ha : a.1 = p
      · have hq : (a.1 == q) = false :=
          beq_false_of_ne (fun hqe => h (ha ▸ hqe).symm)
        have hp : (a.1 == p) = true := by simp [ha]
        simp [List.filter_cons, hp, List.find?_cons, hq, ih]
      · have hp : (a.1 == p) = false := beq_false_of_ne ha
        by_cases haq : a.1 = q
        · have hq : (a.1 == q) = true := by simp [haq]
          simp [List.filter_cons, hp, List.find?_cons, hq]
        · have hq : (a.1 == q) = false := beq_false_of_ne haq
          simp [List.filter_cons, hp, List.find?_cons, hq, ih]

@[simp]
lemma FS.stat_setEntry_self (fsys : FS) (p : Path) (e : Entry) :
    (fsys.setEntry p e).stat p = some e := by
  simp [FS.stat, FS.setEntry, List.find?_cons]

lemma FS.stat_setEntry_ne (fsys : FS) (p q : Path) (e : Entry) (h : ¬(q = p)) :
    (fsys.setEntry p e).stat q = fsys.stat q := by
  have hpq : (p == q) = false := beq_false_of_ne (fun hqe => h hqe.symm)
  simp [FS.stat, FS.setEntry, List.find?_cons, hpq, find?_key_filter_ne _ _ _ h]

@[simp]
lemma FS.stat_removeEntry_self (fsys : FS) (p : Path) :
    (fsys.removeEntry p).stat p = none := by
  simp [FS.stat, FS.removeEntry]

/-- C3: deploying a FileSpec whose computed destination already exists,
with the overwrite prompt declined, returns success and leaves the whole
filesystem (in particular the destination's original bytes) untouched. -/
theorem copyFile_decline_preserves (env : Env) (root pwd : Path) (f : file) (s : S)
    (hex : (s.fs.stat (f.path root pwd)).isSome = true)
    (hdec : env.confirm s.promptCount = false) :
    (copyFile env root pwd f s).2 = none
    ∧ (copyFile env root pwd f s).1.fs = s.fs := by
  obtain ⟨e, he⟩ := Option.isSome_iff_exists.mp hex
  simp [copyFile, he, promptConfirm, hdec]

/-- Witness for C3 at a concrete input: an existing `.eslintrc.js` with a
declining user is skipped successfully and the filesystem is unchanged. -/
theorem copyFile_decline_preserves_witness :
    (copyFile baseEnv ["root"] ["dir"] fileSample sWithFile).2 = none
    ∧ (copyFile baseEnv ["root"] ["dir"] fileSample sWithFile).1.fs = sWithFile.fs :=
  copyFile_decline_preserves baseEnv ["root"] ["dir"] fileSample sWithFile
    (by decide) (by decide)

/-- C4: deploying a FileSpec whose computed destination does not exist
writes the asset's bytes with the asset's recorded mode, emits exactly one
write event, and shows no prompt. -/
theorem copyFile_fresh_creates (env : Env) (root pwd : Path) (f : file) (s : S)
    (habs : s.fs.stat (f.path root pwd) = none)
    (hw : f.path root pwd ∉ s.fs.writeFails) :
    (copyFile env root pwd f s).2 = none
    ∧ (copyFile env root pwd f s).1.fs.stat (f.path root pwd)
        = some (Entry.file f.asset.bytes f.asset.mode)
    ∧ (copyFile env root pwd f s).1.trace = s.trace ++ [Event.fsWrite (f.path root pwd)]
    ∧ (copyFile env root pwd f s).1.promptCount = s.promptCount := by
  simp [copyFile, habs, writeFile, hw]

/-- Witness for C4 at a concrete input: deploying to an empty filesystem
creates the file with the asset's bytes and mode, with no prompt. -/
theorem copyFile_fresh_creates_witness :
    (copyFile baseEnv ["root"] ["dir"] fileSample s0).2 = none
    ∧ (copyFile baseEnv ["root"] ["dir"] fileSample s0).1.fs.stat
        (fileSample.path ["root"] ["dir"])
        = some (Entry.file fileSample.asset.bytes fileSample.asset.mode)
    ∧ (copyFile baseEnv ["root"] ["dir"] fileSample s0).1.trace
        = s0.trace ++ [Event.fsWrite (fileSample.path ["root"] ["dir"])]
    ∧ (copyFile baseEnv ["root"] ["dir"] fileSample s0).1.promptCount = s0.promptCount :=
  copyFile_fresh_creates baseEnv ["root"] ["dir"] fileSample s0 (by decide) (by decide)

/-- C9: the accepted-overwrite path is remove-then-write, not atomic — when
the user accepts, the removal succeeds, and the subsequent write fails,
`copyFile` returns an error while the destination no longer holds the
original file at all. -/
theorem copyFile_accept_write_fail (env : Env) (root pwd : Path) (f : file) (s : S)
    (hex : (s.fs.stat (f.path root pwd)).isSome = true)
    (hacc : env.confirm s.promptCount = true)
    (hrm : f.path root pwd ∉ s.fs.removeFails)
    (hwf : f.path root pwd ∈ s.fs.writeFails) :
    (copyFile env root pwd f s).2 = some "write failed"
    ∧ (copyFile env root pwd f s).1.fs.stat (f.path root pwd) = none := by
  obtain ⟨e, he⟩ := Option.isSome_iff_exists.mp hex
  simp [copyFile, he, promptConfirm, hacc, removeFile, hrm, writeFile, hwf]

/-- Witness for C9 at a concrete input: an accepted overwrite whose write
fails loses the original file and reports an error. -/
theorem copyFile_accept_write_fail_witness :
    (copyFile envAccept ["root"] ["dir"] fileSample sWriteFail).2 = some "write failed"
    ∧ (copyFile envAccept ["root"] ["dir"] fileSample sWriteFail).1.fs.stat
        (fileSample.path ["root"] ["dir"]) = none :=
  copyFile_accept_write_fail envAccept ["root"] ["dir"] fileSample sWriteFail
    (by decide) (by decide) (by decide) (by decide)

lemma installNpmPart_found (env : Env) (program : String) (s : S)
    (hn : env.path "npm" = true) :
    cmdEvents (installNpmPart env program s).1.trace
      = cmdEvents s.trace ++ [("npm", ["install", "-g", program])]
    ∧ (installNpmPart env program s).2
      = Res.ok (if env.cmdOk "npm" ["install", "-g", program] then none
                else some "command failed") := by
  cases hc : env.cmdOk "npm" ["install", "-g", program] <;>
    simp [installNpmPart, lookPath, hn, emitE, cmd, hc, gitEffect, cmdEvents]

/-- C1: dispatch of `install`: without force-fallback and with yarn on
PATH the install runs `yarn global add <program>`; otherwise, with npm on
PATH it runs `npm install -g <program>`; with neither manager on PATH the
process exits with code 1 and no install command is run. -/
theorem install_dispatch (env : Env) (program : String) (force : Bool) (s : S) :
    (force = false → env.path "yarn" = true →
      cmdEvents (install env program force s).1.trace
        = cmdEvents s.trace ++ [("yarn", ["global", "add", program])]
      ∧ (install env program force s).2
        = Res.ok (if env.cmdOk "yarn" ["global", "add", program] then none
                  else some "command failed"))
  ∧ ((force = true ∨ env.path "yarn" = false) → env.path "npm" = true →
      cmdEvents (install env program force s).1.trace
        = cmdEvents s.trace ++ [("npm", ["install", "-g", program])]
      ∧ (install env program force s).2
        = Res.ok (if env.cmdOk "npm" ["install", "-g", program] then none
                  else some "command failed"))
  ∧ (env.path "yarn" = false → env.path "npm" = false →
      (install env program force s).2 = Res.exited 1
      ∧ cmdEvents (install env program force s).1.trace = cmdEvents s.trace) := by
  refine ⟨?_, ?_, ?_⟩
  · intro hf hy
    subst hf
    cases hc : env.cmdOk "yarn" ["global", "add", program] <;>
      simp [install, lookPath, hy, emitE, cmd, hc, gitEffect, cmdEvents]
  · intro hor hn
    rcases hor with hf | hy
    · subst hf
      have h := installNpmPart_found env program s hn
      simpa [install] using h
    · cases force
      · have h := installNpmPart_found env program (emitE s (Event.lookPathEv "yarn")) hn
        have he : cmdEvents (emitE s (Event.lookPathEv "yarn")).trace = cmdEvents s.trace := by
          simp [cmdEvents, emitE]
        rw [he] at h
        simpa [install, lookPath, hy] using h
      · have h := installNpmPart_found env program s hn
        simpa [install] using h
  · intro hy hn
    cases force <;> simp [install, installNpmPart, lookPath, hy, hn, emitE, cmdEvents]

/-- Witness for C1 at a concrete input: with yarn on PATH and no force
flag, the install is one `yarn global add` invocation. -/
theorem install_dispatch_witness :
    cmdEvents (install envYarn "eslint" false s0).1.trace
      = cmdEvents s0.trace ++ [("yarn", ["global", "add", "eslint"])]
    ∧ (install envYarn "eslint" false s0).2
      = Res.ok (if envYarn.cmdOk "yarn" ["global", "add", "eslint"] then none
                else some "command failed") :=
  (install_dispatch envYarn "eslint" false s0).1 rfl (by decide)

lemma install_probes (env : Env) (p : String) (b : Bool) (s : S) :
    ∃ rest, (install env p b s).1.trace
      = s.trace ++ Event.lookPathEv (if b then "npm" else "yarn") :: rest := by
  cases b
  · cases hy : env.path "yarn"
    · cases hn : env.path "npm"
      · exact ⟨[Event.lookPathEv "npm"],
          by simp [install, installNpmPart, lookPath, hy, hn, emitE]⟩
      · refine ⟨[Event.lookPathEv "npm", Event.runCmd "npm" ["install", "-g", p]], ?_⟩
        cases hc : env.cmdOk "npm" ["install", "-g", p] <;>
          simp [install, installNpmPart, lookPath, hy, hn, emitE, cmd, hc, gitEffect]
    · refine ⟨[Event.runCmd "yarn" ["global", "add", p]], ?_⟩
      cases hc : env.cmdOk "yarn" ["global", "add", p] <;>
        simp [install, lookPath, hy, emitE, cmd, hc, gitEffect]
  · cases hn : env.path "npm"
    · exact ⟨[], by simp [install, installNpmPart, lookPath, hn, emitE]⟩
    · refine ⟨[Event.runCmd "npm" ["install", "-g", p]], ?_⟩
      cases hc : env.cmdOk "npm" ["install", "-g", p] <;>
        simp [install, installNpmPart, lookPath, hn, emitE, cmd, hc, gitEffect]

/-- C2: `ensureInstalled` on a binary requirement already on PATH performs
zero install invocations and leaves the filesystem untouched; on a package
requirement it always performs exactly the install attempt (probing a
package manager first), regardless of prior state. -/
theorem ensureInstalled_kinds (env : Env) (r : requirement) (npm : Bool) (s : S) :
    (r.binary = true → env.path r.pkg = true →
      ensureInstalled env r npm s = (emitE s (Event.lookPathEv r.pkg), Res.ok ())
      ∧ cmdEvents (ensureInstalled env r npm s).1.trace = cmdEvents s.trace
      ∧ (ensureInstalled env r npm s).1.fs = s.fs)
  ∧ (r.binary = false →
      (ensureInstalled env r npm s).1 = (install env r.pkg npm s).1
      ∧ ∃ rest, (ensureInstalled env r npm s).1.trace
          = s.trace ++ Event.lookPathEv (if npm then "npm" else "yarn") :: rest) := by
  constructor
  · intro hb hp
    simp [ensureInstalled, hb, lookPath, hp, emitE, cmdEvents]
  · intro hb
    have hfst : (ensureInstalled env r npm s).1 = (install env r.pkg npm s).1 := by
      rcases h : install env r.pkg npm s with ⟨s2, r2⟩
      rcases r2 with a | c
      · rcases a with _ | e <;> simp [ensureInstalled, hb, h]
      · simp [ensureInstalled, hb, h]
    refine ⟨hfst, ?_⟩
    obtain ⟨rest, hrest⟩ := install_probes env r.pkg npm s
    exact ⟨rest, by rw [hfst, hrest]⟩

/-- Witness for C2 at a concrete input: eslint already on PATH means no
install invocation at all. -/
theorem ensureInstalled_kinds_witness :
    ensureInstalled envEslint ⟨"eslint", true⟩ false s0
      = (emitE s0 (Event.lookPathEv "eslint"), Res.ok ())
    ∧ cmdEvents (ensureInstalled envEslint ⟨"eslint", true⟩ false s0).1.trace
      = cmdEvents s0.trace
    ∧ (ensureInstalled envEslint ⟨"eslint", true⟩ false s0).1.fs = s0.fs :=
  (ensureInstalled_kinds envEslint ⟨"eslint", true⟩ false s0).1 rfl (by decide)

/-- C10: with the force-fallback flag set, `install` never probes for yarn
and behaves identically in any two environments that differ only in
whether yarn is resolvable on PATH. -/
theorem install_force_independent (env1 env2 : Env) (program : String) (s : S)
    (hpath : ∀ n, ¬(n = "yarn") → env1.path n = env2.path n)
    (hcmd : ∀ b a, env1.cmdOk b a = env2.cmdOk b a) :
    install env1 program true s = install env2 program true s
    ∧ ∃ t, (install env1 program true s).1.trace = s.trace ++ t
        ∧ Event.lookPathEv "yarn" ∉ t := by
  have hn : env1.path "npm" = env2.path "npm" := hpath "npm" (by decide)
  constructor
  · cases h2 : env2.path "npm"
    · have h1 : env1.path "npm" = false := by rw [hn, h2]
      simp [install, installNpmPart, lookPath, h1, h2]
    · have h1 : env1.path "npm" = true := by rw [hn, h2]
      have hc := hcmd "npm" ["install", "-g", program]
      cases hc2 : env2.cmdOk "npm" ["install", "-g", program]
      · have hc1 : env1.cmdOk "npm" ["install", "-g", program] = false := by rw [hc, hc2]
        simp [install, installNpmPart, lookPath, h1, h2, cmd, hc1, hc2, emitE, gitEffect]
      · have hc1 : env1.cmdOk "npm" ["install", "-g", program] = true := by rw [hc, hc2]
        simp [install, installNpmPart, lookPath, h1, h2, cmd, hc1, hc2, emitE, gitEffect]
  · cases h1 : env1.path "npm"
    · refine ⟨[Event.lookPathEv "npm"], ?_, by decide⟩
      simp [install, installNpmPart, lookPath, h1, emitE]
    · refine ⟨[Event.lookPathEv "npm", Event.runCmd "npm" ["install", "-g", program]],
        ?_, by simp⟩
      cases hc : env1.cmdOk "npm" ["install", "-g", program] <;>
        simp [install, installNpmPart, lookPath, h1, emitE, cmd, hc, gitEffect]

/-- Witness for C10 at a concrete input: adding yarn to an npm-only PATH
changes nothing about a forced install. -/
theorem install_force_independent_witness :
    install envNpmOnly "eslint" true s0 = install envNpmYarn "eslint" true s0 := by
  refine (install_force_independent envNpmOnly envNpmYarn "eslint" s0 ?_ ?_).1
  · intro n hn
    have hb : (n == "yarn") = false := beq_false_of_ne hn
    simp [envNpmOnly, envNpmYarn, baseEnv, hb]
  · intro b a
    rfl

lemma install_preserves (env : Env) (p : String) (b : Bool) (s : S) :
    (install env p b s).1.fs = s.fs
    ∧ (install env p b s).1.promptCount = s.promptCount
    ∧ (install env p b s).1.git = s.git
    ∧ writeEvents (install env p b s).1.trace = writeEvents s.trace := by
  cases b
  · cases hy : env.path "yarn"
    · cases hn : env.path "npm"
      · simp [install, installNpmPart, lookPath, hy, hn, emitE, writeEvents]
      · cases hc : env.cmdOk "npm" ["install", "-g", p] <;>
          simp [install, installNpmPart, lookPath, hy, hn, emitE, cmd, hc, gitEffect,
                writeEvents]
    · cases hc : env.cmdOk "yarn" ["global", "add", p] <;>
        simp [install, lookPath, hy, emitE, cmd, hc, gitEffect, writeEvents]
  · cases hn : env.path "npm"
    · simp [install, installNpmPart, lookPath, hn, emitE, writeEvents]
    · cases hc : env.cmdOk "npm" ["install", "-g", p] <;>
        simp [install, installNpmPart, lookPath, hn, emitE, cmd, hc, gitEffect, writeEvents]

lemma ensureInstalled_preserves (env : Env) (r : requirement) (b : Bool) (s : S) :
    (ensureInstalled env r b s).1.fs = s.fs
    ∧ (ensureInstalled env r b s).1.promptCount = s.promptCount
    ∧ (ensureInstalled env r b s).1.git = s.git
    ∧ writeEvents (ensureInstalled env r b s).1.trace = writeEvents s.trace := by
  cases hb : r.binary
  · have hi := install_preserves env r.pkg b s
    rcases h : install env r.pkg b s with ⟨s2, r2⟩
    rw [h] at hi
    rcases r2 with a | c
    · rcases a with _ | e <;> simpa [ensureInstalled, hb, h] using hi
    · simpa [ensureInstalled, hb, h] using hi
  · cases hp : env.path r.pkg
    · have hi := install_preserves env r.pkg b (emitE s (Event.lookPathEv r.pkg))
      rcases h : install env r.pkg b (emitE s (Event.lookPathEv r.pkg)) with ⟨s2, r2⟩
      rw [h] at hi
      simp [writeEvents] at hi
      rcases r2 with a | c
      · rcases a with _ | e <;>
          simpa [ensureInstalled, hb, lookPath, hp, h, writeEvents] using hi
      · simpa [ensureInstalled, hb, lookPath, hp, h, writeEvents] using hi
    · simp [ensureInstalled, hb, lookPath, hp, emitE, writeEvents]

lemma installRequirements_preserves (env : Env) :
    ∀ (rs : List requirement) (s : S),
      (installRequirements env rs s).1.fs = s.fs
      ∧ (installRequirements env rs s).1.promptCount = s.promptCount
      ∧ (installRequirements env rs s).1.git = s.git
      ∧ writeEvents (installRequirements env rs s).1.trace = writeEvents s.trace := by
  intro rs
  induction rs with
  | nil => intro s; simp [installRequirements]
  | cons r rs ih =>
      intro s
      have he := ensureInstalled_preserves env r env.npm s
      rcases h : ensureInstalled env r env.npm s with ⟨s1, r1⟩
      rw [h] at he
      rcases r1 with u | c
      · cases u
        have ht := ih s1
        simp only [installRequirements, h]
        exact ⟨ht.1.trans he.1, (ht.2.1).trans he.2.1, (ht.2.2.1).trans he.2.2.1,
               (ht.2.2.2).trans he.2.2.2⟩
      · simpa [installRequirements, h] using he

lemma install_no_mgr (env : Env) (p : String) (b : Bool) (s : S)
    (hy : env.path "yarn" = false) (hn : env.path "npm" = false) :
    (install env p b s).2 = Res.exited 1 := by
  cases b <;> simp [install, installNpmPart, lookPath, hy, hn, emitE]

lemma ensureInstalled_no_mgr (env : Env) (r : requirement) (b : Bool) (s : S)
    (hy : env.path "yarn" = false) (hn : env.path "npm" = false) :
    (ensureInstalled env r b s).2
      = (if r.binary && env.path r.pkg then Res.ok () else Res.exited 1) := by
  cases hb : r.binary
  · have hi := install_no_mgr env r.pkg b s hy hn
    rcases h : install env r.pkg b s with ⟨s2, r2⟩
    rw [h] at hi
    simp at hi
    subst hi
    simp [ensureInstalled, hb, h]
  · cases hp : env.path r.pkg
    · have hi := install_no_mgr env r.pkg b (emitE s (Event.lookPathEv r.pkg)) hy hn
      rcases h : install env r.pkg b (emitE s (Event.lookPathEv r.pkg)) with ⟨s2, r2⟩
      rw [h] at hi
      simp at hi
      subst hi
      simp [ensureInstalled, hb, lookPath, hp, h]
    · simp [ensureInstalled, hb, lookPath, hp]

lemma installRequirements_no_mgr (env : Env)
    (hy : env.path "yarn" = false) (hn : env.path "npm" = false) :
    ∀ (rs : List requirement) (s : S), (∃ r, r ∈ rs ∧ r.binary = false) →
      (installRequirements env rs s).2 = Res.exited 1 := by
  intro rs
  induction rs with
  | nil =>
      intro s h
      rcases h with ⟨r, hr, _⟩
      simp at hr
  | cons a t ih =>
      intro s h
      have ha := ensureInstalled_no_mgr env a env.npm s hy hn
      rcases hcase : ensureInstalled env a env.npm s with ⟨s1, r1⟩
      rw [hcase] at ha
      cases hab : a.binary && env.path a.pkg
      · rw [hab] at ha
        simp at ha
        simp [installRequirements, hcase, ha]
      · rw [hab] at ha
        simp at ha
        simp [installRequirements, hcase, ha]
        apply ih s1
        rcases h with ⟨r, hr, hrb⟩
        rcases List.mem_cons.mp hr with hre | hmem
        · exfalso
          have hbt : a.binary = true := by revert hab; cases a.binary <;> simp
          rw [hre] at hrb
          rw [hrb] at hbt
          exact Bool.false_ne_true hbt
        · exact ⟨r, hmem, hrb⟩

/-- C5: a run in an environment where neither yarn nor npm is resolvable
terminates with exit code 1 before any filesystem write: the filesystem is
unchanged and no write or removal event was emitted. -/
theorem run_no_managers_aborts (env : Env) (s : S)
    (hy : env.path "yarn" = false) (hn : env.path "npm" = false) :
    (run env s).2 = Res.exited 1
    ∧ (run env s).1.fs = s.fs
    ∧ writeEvents (run env s).1.trace = writeEvents s.trace := by
  have hex : (installRequirements env requirements s).2 = Res.exited 1 := by
    apply installRequirements_no_mgr env hy hn
    exact ⟨⟨"eslint-plugin-prettier", false⟩, by decide, rfl⟩
  have hpres := installRequirements_preserves env requirements s
  rcases h : installRequirements env requirements s with ⟨s1, r1⟩
  rw [h] at hex hpres
  simp at hex
  subst hex
  simp [run, h]
  exact ⟨hpres.1, hpres.2.2.2⟩

/-- Witness for C5 at a concrete input: with an empty PATH the run exits 1
without touching the filesystem. -/
theorem run_no_managers_aborts_witness :
    (run baseEnv s0).2 = Res.exited 1
    ∧ (run baseEnv s0).1.fs = s0.fs
    ∧ writeEvents (run baseEnv s0).1.trace = writeEvents s0.trace :=
  run_no_managers_aborts baseEnv s0 rfl rfl

lemma ensureRepo_state (env : Env) (s : S)
    (hdir : isDir s (env.root ++ [".git"]) = false)
    (hc1 : env.cmdOk "git" ["init"] = true)
    (hc2 : env.cmdOk "git" ["add", "-A"] = true)
    (hc3 : env.cmdOk "git" ["commit", "-am", commitMessage] = true) :
    ensureRepo env s = (sAfterRepo env s, Res.ok ()) := by
  simp [ensureRepo, hdir, initializeGitRepo, cmd, hc1, hc2, hc3, gitEffect, emitE,
        sAfterRepo]

/-- C6: when no version-control metadata directory exists at the project
root and the three version-control commands succeed, the bootstrap step
runs init, stage-all and exactly one commit (with the fixed message,
containing every tracked file present at that moment), in that order; a
second run on the resulting state detects the repository and is a complete
no-op. -/
theorem ensureRepo_twice (env : Env) (s : S)
    (hdir : isDir s (env.root ++ [".git"]) = false)
    (hc1 : env.cmdOk "git" ["init"] = true)
    (hc2 : env.cmdOk "git" ["add", "-A"] = true)
    (hc3 : env.cmdOk "git" ["commit", "-am", commitMessage] = true) :
    (ensureRepo env s).2 = Res.ok ()
    ∧ (ensureRepo env s).1.git
        = some ⟨env.root, [],
            [⟨commitMessage,
              trackedFiles (s.fs.setEntry (env.root ++ [".git"]) Entry.dir) env.root⟩]⟩
    ∧ (ensureRepo env s).1.trace
        = s.trace ++ [Event.runCmd "git" ["init"], Event.runCmd "git" ["add", "-A"],
                      Event.runCmd "git" ["commit", "-am", commitMessage]]
    ∧ ensureRepo env (ensureRepo env s).1 = ((ensureRepo env s).1, Res.ok ()) := by
  have hmain := ensureRepo_state env s hdir hc1 hc2 hc3
  refine ⟨by rw [hmain], by rw [hmain]; rfl, by rw [hmain]; rfl, ?_⟩
  rw [hmain]
  simp [ensureRepo, isDir, sAfterRepo]

/-- Witness for C6 at a concrete input: bootstrapping an empty state
succeeds and a second bootstrap is a no-op. -/
theorem ensureRepo_twice_witness :
    (ensureRepo baseEnv s0).2 = Res.ok ()
    ∧ ensureRepo baseEnv (ensureRepo baseEnv s0).1 = ((ensureRepo baseEnv s0).1, Res.ok ()) :=
  ⟨(ensureRepo_twice baseEnv s0 rfl rfl rfl rfl).1,
   (ensureRepo_twice baseEnv s0 rfl rfl rfl rfl).2.2.2⟩

/-- C7: `run` is exactly the sequential composition of its five stages in
declaration order; a stage that terminates the process prevents every
later stage from starting (the final state is the terminating stage's
state); and within the requirements stage, requirement i+1 is processed
only after requirement i succeeded, while a terminating requirement ends
the whole iteration. -/
theorem run_stage_order (env : Env) (s : S) :
    run env s
      = seqStage (installRequirements env requirements)
          (seqStage (stageGitignore env)
            (seqStage (stageAssets env)
              (seqStage (ensureRepo env) (stageHook env)))) s
    ∧ (∀ (a b : S → S × Res Unit) (s' : S) (c : Nat),
        (a s').2 = Res.exited c → seqStage a b s' = ((a s').1, Res.exited c))
    ∧ (∀ c : Nat, (installRequirements env requirements s).2 = Res.exited c →
        run env s = ((installRequirements env requirements s).1, Res.exited c))
    ∧ (∀ (r : requirement) (rs : List requirement) (s' : S) (c : Nat),
        (ensureInstalled env r env.npm s').2 = Res.exited c →
        installRequirements env (r :: rs) s'
          = ((ensureInstalled env r env.npm s').1, Res.exited c))
    ∧ (∀ (r : requirement) (rs : List requirement) (s' : S),
        (ensureInstalled env r env.npm s').2 = Res.ok () →
        installRequirements env (r :: rs) s'
          = installRequirements env rs (ensureInstalled env r env.npm s').1) := by
  refine ⟨?_, ?_, ?_, ?_, ?_⟩
  · rcases h1 : installRequirements env requirements s with ⟨s1, r1⟩
    rcases r1 with u | c
    · cases u
      rcases h2 : stageGitignore env s1 with ⟨s2, r2⟩
      simp only [stageGitignore] at h2
      rcases r2 with u2 | c2
      · cases u2
        rcases h3 : stageAssets env s2 with ⟨s3, r3⟩
        simp only [stageAssets] at h3
        rcases r3 with u3 | c3
        · cases u3
          rcases h4 : ensureRepo env s3 with ⟨s4, r4⟩
          rcases r4 with u4 | c4
          · cases u4
            rcases h5 : stageHook env s4 with ⟨s5, r5⟩
            simp only [stageHook] at h5
            simp only [run, seqStage, stageGitignore, stageAssets, stageHook,
                       h1, h2, h3, h4, h5]
          · simp only [run, seqStage, stageGitignore, stageAssets, stageHook,
                       h1, h2, h3, h4]
        · simp only [run, seqStage, stageGitignore, stageAssets, h1, h2, h3]
      · simp only [run, seqStage, stageGitignore, h1, h2]
    · simp only [run, seqStage, h1]
  · intro a b s' c h
    rcases ha : a s' with ⟨s1, r1⟩
    rw [ha] at h
    simp at h
    subst h
    simp [seqStage, ha]
  · intro c h
    rcases h1 : installRequirements env requirements s with ⟨s1, r1⟩
    rw [h1] at h
    simp at h
    subst h
    simp [run, h1]
  · intro r rs s' c h
    rcases he : ensureInstalled env r env.npm s' with ⟨s1, r1⟩
    rw [he] at h
    simp at h
    subst h
    simp [installRequirements, he]
  · intro r rs s' h
    rcases he : ensureInstalled env r env.npm s' with ⟨s1, r1⟩
    rw [he] at h
    simp at h
    subst h
    simp [installRequirements, he]

/-- Witness for C7 at a concrete input: with an empty PATH the
requirements stage terminates the process and `run` ends in exactly that
stage's state. -/
theorem run_stage_order_witness :
    run baseEnv s0 = ((installRequirements baseEnv requirements s0).1, Res.exited 1) :=
  (run_stage_order baseEnv s0).2.2.1 1 (by decide)

lemma install_yarn_ok (env : Env) (p : String) (s : S)
    (hyarn : env.path "yarn" = true) (hcmd : ∀ b a, env.cmdOk b a = true) :
    (install env p false s).2 = Res.ok none := by
  simp [install, lookPath, hyarn, cmd, hcmd, gitEffect, emitE]

lemma ensureInstalled_yarn_ok (env : Env) (r : requirement) (s : S)
    (hyarn : env.path "yarn" = true) (hcmd : ∀ b a, env.cmdOk b a = true) :
    (ensureInstalled env r false s).2 = Res.ok () := by
  cases hb : r.binary
  · have hi := install_yarn_ok env r.pkg s hyarn hcmd
    rcases h : install env r.pkg false s with ⟨s2, r2⟩
    rw [h] at hi
    simp at hi
    subst hi
    simp [ensureInstalled, hb, h]
  · cases hp : env.path r.pkg
    · have hi := install_yarn_ok env r.pkg (emitE s (Event.lookPathEv r.pkg)) hyarn hcmd
      rcases h : install env r.pkg false (emitE s (Event.lookPathEv r.pkg)) with ⟨s2, r2⟩
      rw [h] at hi
      simp at hi
      subst hi
      simp [ensureInstalled, hb, lookPath, hp, h]
    · simp [ensureInstalled, hb, lookPath, hp]

lemma installRequirements_yarn_ok (env : Env) (hflag : env.npm = false)
    (hyarn : env.path "yarn" = true) (hcmd : ∀ b a, env.cmdOk b a = true) :
    ∀ (rs : List requirement) (s : S), (installRequirements env rs s).2 = Res.ok () := by
  intro rs
  induction rs with
  | nil => intro s; simp [installRequirements]
  | cons r t ih =>
      intro s
      have he := ensureInstalled_yarn_ok env r s hyarn hcmd
      rcases h : ensureInstalled env r false s with ⟨s1, r1⟩
      rw [h] at he
      simp at he
      subst he
      simp [installRequirements, hflag, h]
      exact ih s1

lemma copyFile_absent_state (env : Env) (root pwd : Path) (f : file) (s : S)
    (habs : s.fs.stat (f.path root pwd) = none)
    (hw : f.path root pwd ∉ s.fs.writeFails) :
    copyFile env root pwd f s
      = ({ s with fs := s.fs.setEntry (f.path root pwd)
                          (Entry.file f.asset.bytes f.asset.mode),
                  trace := s.trace ++ [Event.fsWrite (f.path root pwd)] }, none) := by
  simp [copyFile, habs, writeFile, hw]

lemma path_ne {p q : Path} (h : ¬(p.reverse = q.reverse)) : ¬(p = q) :=
  fun he => h (congrArg List.reverse he)

lemma file_path_root (a : asset) (d : List String) (r w : Path) :
    (file.mk a d true).path r w = r ++ d := rfl

lemma file_path_wd (a : asset) (d : List String) (r w : Path) :
    (file.mk a d false).path r w = w ++ d := rfl

/-- Counterexample to C8 as stated: an environment resolving every
requirement name on PATH but no package manager still satisfies every
premise of the claim (no `.gitignore`, no `.git` directory), yet the run
terminates with exit code 1 rather than succeeding: the package-kind
requirements unconditionally invoke `install`, which aborts. -/
theorem run_all_reqs_no_manager_fails :
    (∀ r ∈ requirements, envAll8.path r.pkg = true)
    ∧ s0.fs.stat (envAll8.dir ++ [".gitignore"]) = none
    ∧ isDir s0 (envAll8.root ++ [".git"]) = false
    ∧ (run envAll8 s0).2 = Res.exited 1
    ∧ ¬((run envAll8 s0).2 = Res.ok ()) := by
  refine ⟨by decide, by decide, by decide, by decide, by decide⟩

/-- C8 (amended): a run invoked without the force-fallback flag, in which
every requirement name and yarn are resolvable on PATH, every external
command succeeds, file writes do not fail, and none of the six destination
paths (target `.gitignore`, target `.csscomb.json`, target `.eslintrc.js`,
root `.editorconfig`, root `.git`, root `.git/hooks/pre-commit`) initially
exist, succeeds with exit 0, creates all five files with their assets'
bytes and modes, bootstraps a repository with exactly one commit, and
shows no overwrite prompt. -/
theorem run_scenarioB_amended (env : Env) (s : S)
    (h0 : ∀ r ∈ requirements, env.path r.pkg = true)
    (hflag : env.npm = false)
    (hyarn : env.path "yarn" = true)
    (hcmd : ∀ b a, env.cmdOk b a = true)
    (hwf : s.fs.writeFails = [])
    (hg1 : s.fs.stat (env.dir ++ [".gitignore"]) = none)
    (hg2 : s.fs.stat (env.dir ++ [".csscomb.json"]) = none)
    (hg3 : s.fs.stat (env.dir ++ [".eslintrc.js"]) = none)
    (hg4 : s.fs.stat (env.root ++ [".editorconfig"]) = none)
    (hg5 : s.fs.stat (env.root ++ [".git"]) = none)
    (hg6 : s.fs.stat (env.root ++ [".git", "hooks", "pre-commit"]) = none) :
    (run env s).2 = Res.ok ()
    ∧ (run env s).1.fs.stat (env.dir ++ [".gitignore"])
        = some (Entry.file env.store.configGitignore.bytes env.store.configGitignore.mode)
    ∧ (run env s).1.fs.stat (env.dir ++ [".csscomb.json"])
        = some (Entry.file env.store.configCsscombJson.bytes env.store.configCsscombJson.mode)
    ∧ (run env s).1.fs.stat (env.dir ++ [".eslintrc.js"])
        = some (Entry.file env.store.configEslintrcJs.bytes env.store.configEslintrcJs.mode)
    ∧ (run env s).1.fs.stat (env.root ++ [".editorconfig"])
        = some (Entry.file env.store.configEditorconfig.bytes env.store.configEditorconfig.mode)
    ∧ (run env s).1.fs.stat (env.root ++ [".git", "hooks", "pre-commit"])
        = some (Entry.file env.store.hooksPreCommit.bytes env.store.hooksPreCommit.mode)
    ∧ (∃ g, (run env s).1.git = some g ∧ g.commits.length = 1)
    ∧ (run env s).1.promptCount = s.promptCount := by
  have hreq := installRequirements_yarn_ok env hflag hyarn hcmd requirements s
  have hpres := installRequirements_preserves env requirements s
  rcases hR : installRequirements env requirements s with ⟨s1, r1⟩
  rw [hR] at hreq hpres
  simp at hreq
  subst hreq
  obtain ⟨hfs1, hpc1, hgit1, -⟩ := hpres
  have t1 : s1.fs.stat (env.dir ++ [".gitignore"]) = none := by rw [hfs1]; exact hg1
  have t2 : s1.fs.stat (env.dir ++ [".csscomb.json"]) = none := by rw [hfs1]; exact hg2
  have t3 : s1.fs.stat (env.dir ++ [".eslintrc.js"]) = none := by rw [hfs1]; exact hg3
  have t4 : s1.fs.stat (env.root ++ [".editorconfig"]) = none := by rw [hfs1]; exact hg4
  have t5 : s1.fs.stat (env.root ++ [".git"]) = none := by rw [hfs1]; exact hg5
  have t6 : s1.fs.stat (env.root ++ [".git", "hooks", "pre-commit"]) = none := by
    rw [hfs1]; exact hg6
  have tw : s1.fs.writeFails = [] := by rw [hfs1]; exact hwf
  have hCG : ¬(env.dir ++ [".csscomb.json"] = env.dir ++ [".gitignore"]) := path_ne (by simp)
  have hJC : ¬(env.dir ++ [".eslintrc.js"] = env.dir ++ [".csscomb.json"]) := path_ne (by simp)
  have hJG : ¬(env.dir ++ [".eslintrc.js"] = env.dir ++ [".gitignore"]) := path_ne (by simp)
  have hEJ : ¬(env.root ++ [".editorconfig"] = env.dir ++ [".eslintrc.js"]) := path_ne (by simp)
  have hEC : ¬(env.root ++ [".editorconfig"] = env.dir ++ [".csscomb.json"]) := path_ne (by simp)
  have hEG : ¬(env.root ++ [".editorconfig"] = env.dir ++ [".gitignore"]) := path_ne (by simp)
  have hDE : ¬(env.root ++ [".git"] = env.root ++ [".editorconfig"]) := path_ne (by simp)
  have hDJ : ¬(env.root ++ [".git"] = env.dir ++ [".eslintrc.js"]) := path_ne (by simp)
  have hDC : ¬(env.root ++ [".git"] = env.dir ++ [".csscomb.json"]) := path_ne (by simp)
  have hDG : ¬(env.root ++ [".git"] = env.dir ++ [".gitignore"]) := path_ne (by simp)
  have hHD : ¬(env.root ++ [".git", "hooks", "pre-commit"] = env.root ++ [".git"]) :=
    path_ne (by simp)
  have hHE : ¬(env.root ++ [".git", "hooks", "pre-commit"] = env.root ++ [".editorconfig"]) :=
    path_ne (by simp)
  have hHJ : ¬(env.root ++ [".git", "hooks", "pre-commit"] = env.dir ++ [".eslintrc.js"]) :=
    path_ne (by simp)
  have hHC : ¬(env.root ++ [".git", "hooks", "pre-commit"] = env.dir ++ [".csscomb.json"]) :=
    path_ne (by simp)
  have hHG : ¬(env.root ++ [".git", "hooks", "pre-commit"] = env.dir ++ [".gitignore"]) :=
    path_ne (by simp)
  have hGH : ¬(env.dir ++ [".gitignore"] = env.root ++ [".git", "hooks", "pre-commit"]) :=
    path_ne (by simp)
  have hGD : ¬(env.dir ++ [".gitignore"] = env.root ++ [".git"]) := path_ne (by simp)
  have hGE : ¬(env.dir ++ [".gitignore"] = env.root ++ [".editorconfig"]) := path_ne (by simp)
  have hGJ : ¬(env.dir ++ [".gitignore"] = env.dir ++ [".eslintrc.js"]) := path_ne (by simp)
  have hGC : ¬(env.dir ++ [".gitignore"] = env.dir ++ [".csscomb.json"]) := path_ne (by simp)
  have hCH : ¬(env.dir ++ [".csscomb.json"] = env.root ++ [".git", "hooks", "pre-commit"]) :=
    path_ne (by simp)
  have hCD : ¬(env.dir ++ [".csscomb.json"] = env.root ++ [".git"]) := path_ne (by simp)
  have hCE : ¬(env.dir ++ [".csscomb.json"] = env.root ++ [".editorconfig"]) := path_ne (by simp)
  have hCJ : ¬(env.dir ++ [".csscomb.json"] = env.dir ++ [".eslintrc.js"]) := path_ne (by simp)
  have hJH : ¬(env.dir ++ [".eslintrc.js"] = env.root ++ [".git", "hooks", "pre-commit"]) :=
    path_ne (by simp)
  have hJD : ¬(env.dir ++ [".eslintrc.js"] = env.root ++ [".git"]) := path_ne (by simp)
  have hJE : ¬(env.dir ++ [".eslintrc.js"] = env.root ++ [".editorconfig"]) := path_ne (by simp)
  have hEH : ¬(env.root ++ [".editorconfig"] = env.root ++ [".git", "hooks", "pre-commit"]) :=
    path_ne (by simp)
  have hED : ¬(env.root ++ [".editorconfig"] = env.root ++ [".git"]) := path_ne (by simp)
  have fsG : (sAfterGitignore env s1).fs
      = s1.fs.setEntry (env.dir ++ [".gitignore"])
          (Entry.file env.store.configGitignore.bytes env.store.configGitignore.mode) := rfl
  have fsC : (sAfterCss env s1).fs
      = (sAfterGitignore env s1).fs.setEntry (env.dir ++ [".csscomb.json"])
          (Entry.file env.store.configCsscombJson.bytes env.store.configCsscombJson.mode) := rfl
  have fsJ : (sAfterEsl env s1).fs
      = (sAfterCss env s1).fs.setEntry (env.dir ++ [".eslintrc.js"])
          (Entry.file env.store.configEslintrcJs.bytes env.store.configEslintrcJs.mode) := rfl
  have fsE : (sAfterAssets env s1).fs
      = (sAfterEsl env s1).fs.setEntry (env.root ++ [".editorconfig"])
          (Entry.file env.store.configEditorconfig.bytes env.store.configEditorconfig.mode) := rfl
  have fsR : (sAfterRepo env (sAfterAssets env s1)).fs
      = (sAfterAssets env s1).fs.setEntry (env.root ++ [".git"]) Entry.dir := rfl
  have fsH : (sAfterHook env (sAfterRepo env (sAfterAssets env s1))).fs
      = (sAfterRepo env (sAfterAssets env s1)).fs.setEntry
          (env.root ++ [".git", "hooks", "pre-commit"])
          (Entry.file env.store.hooksPreCommit.bytes env.store.hooksPreCommit.mode) := rfl
  have wfG : (sAfterGitignore env s1).fs.writeFails = [] := by
    rw [fsG, setEntry_writeFails, tw]
  have wfC : (sAfterCss env s1).fs.writeFails = [] := by
    rw [fsC, setEntry_writeFails, wfG]
  have wfJ : (sAfterEsl env s1).fs.writeFails = [] := by
    rw [fsJ, setEntry_writeFails, wfC]
  have wfE : (sAfterAssets env s1).fs.writeFails = [] := by
    rw [fsE, setEntry_writeFails, wfJ]
  have wfR : (sAfterRepo env (sAfterAssets env s1)).fs.writeFails = [] := by
    rw [fsR, setEntry_writeFails, wfE]
  have sC : (sAfterGitignore env s1).fs.stat (env.dir ++ [".csscomb.json"]) = none := by
    rw [fsG, FS.stat_setEntry_ne _ _ _ _ hCG]; exact t2
  have sJ : (sAfterCss env s1).fs.stat (env.dir ++ [".eslintrc.js"]) = none := by
    rw [fsC, FS.stat_setEntry_ne _ _ _ _ hJC, fsG, FS.stat_setEntry_ne _ _ _ _ hJG]
    exact t3
  have sE : (sAfterEsl env s1).fs.stat (env.root ++ [".editorconfig"]) = none := by
    rw [fsJ, FS.stat_setEntry_ne _ _ _ _ hEJ, fsC, FS.stat_setEntry_ne _ _ _ _ hEC,
        fsG, FS.stat_setEntry_ne _ _ _ _ hEG]
    exact t4
  have sD : (sAfterAssets env s1).fs.stat (env.root ++ [".git"]) = none := by
    rw [fsE, FS.stat_setEntry_ne _ _ _ _ hDE, fsJ, FS.stat_setEntry_ne _ _ _ _ hDJ,
        fsC, FS.stat_setEntry_ne _ _ _ _ hDC, fsG, FS.stat_setEntry_ne _ _ _ _ hDG]
    exact t5
  have hdirA : isDir (sAfterAssets env s1) (env.root ++ [".git"]) = false := by
    simp [isDir, sD]
  have sH : (sAfterRepo env (sAfterAssets env s1)).fs.stat
      (env.root ++ [".git", "hooks", "pre-commit"]) = none := by
    rw [fsR, FS.stat_setEntry_ne _ _ _ _ hHD, fsE, FS.stat_setEntry_ne _ _ _ _ hHE,
        fsJ, FS.stat_setEntry_ne _ _ _ _ hHJ, fsC, FS.stat_setEntry_ne _ _ _ _ hHC,
        fsG, FS.stat_setEntry_ne _ _ _ _ hHG]
    exact t6
  have hexG : existsPath s1 (env.dir ++ [".gitignore"]) = false := by
    simp [existsPath, t1]
  have stG : copyFile env env.root env.dir (gitignore env.store) s1
      = (sAfterGitignore env s1, none) :=
    copyFile_absent_state env env.root env.dir (gitignore env.store) s1 t1
      (by simp [gitignore, file.path, mkPath, tw])
  have st1 : copyFile env env.root env.dir
      ⟨env.store.configCsscombJson, [".csscomb.json"], false⟩ (sAfterGitignore env s1)
      = (sAfterCss env s1, none) :=
    copyFile_absent_state env env.root env.dir _ _ sC (by simp [file.path, wfG])
  have st2 : copyFile env env.root env.dir
      ⟨env.store.configEslintrcJs, [".eslintrc.js"], false⟩ (sAfterCss env s1)
      = (sAfterEsl env s1, none) :=
    copyFile_absent_state env env.root env.dir _ _ sJ (by simp [file.path, wfC])
  have st3 : copyFile env env.root env.dir
      ⟨env.store.configEditorconfig, [".editorconfig"], true⟩ (sAfterEsl env s1)
      = (sAfterAssets env s1, none) :=
    copyFile_absent_state env env.root env.dir _ _ sE (by simp [file.path, wfJ])
  have eAS : copyAssets env env.root env.dir (files env.store) (sAfterGitignore env s1)
      = (sAfterAssets env s1, Res.ok ()) := by
    simp only [files, copyAssets, mkPath, st1, st2, st3]
  have stR : ensureRepo env (sAfterAssets env s1)
      = (sAfterRepo env (sAfterAssets env s1), Res.ok ()) :=
    ensureRepo_state env (sAfterAssets env s1) hdirA (hcmd _ _) (hcmd _ _) (hcmd _ _)
  have stH : copyFile env env.root env.dir (precommitHook env.store)
      (sAfterRepo env (sAfterAssets env s1))
      = (sAfterHook env (sAfterRepo env (sAfterAssets env s1)), none) :=
    copyFile_absent_state env env.root env.dir _ _ sH
      (by simp [precommitHook, file.path, mkPath, wfR])
  have hrun : run env s
      = (sAfterHook env (sAfterRepo env (sAfterAssets env s1)), Res.ok ()) := by
    simp [run, hR, hexG, stG, eAS, stR, stH]
  have hrun1 : (run env s).1 = sAfterHook env (sAfterRepo env (sAfterAssets env s1)) := by
    rw [hrun]
  have hrun2 : (run env s).2 = Res.ok () := by rw [hrun]
  refine ⟨hrun2, ?_, ?_, ?_, ?_, ?_, ?_, ?_⟩
  · rw [hrun1, fsH, FS.stat_setEntry_ne _ _ _ _ hGH, fsR, FS.stat_setEntry_ne _ _ _ _ hGD,
        fsE, FS.stat_setEntry_ne _ _ _ _ hGE, fsJ, FS.stat_setEntry_ne _ _ _ _ hGJ,
        fsC, FS.stat_setEntry_ne _ _ _ _ hGC, fsG, FS.stat_setEntry_self]
  · rw [hrun1, fsH, FS.stat_setEntry_ne _ _ _ _ hCH, fsR, FS.stat_setEntry_ne _ _ _ _ hCD,
        fsE, FS.stat_setEntry_ne _ _ _ _ hCE, fsJ, FS.stat_setEntry_ne _ _ _ _ hCJ,
        fsC, FS.stat_setEntry_self]
  · rw [hrun1, fsH, FS.stat_setEntry_ne _ _ _ _ hJH, fsR, FS.stat_setEntry_ne _ _ _ _ hJD,
        fsE, FS.stat_setEntry_ne _ _ _ _ hJE, fsJ, FS.stat_setEntry_self]
  · rw [hrun1, fsH, FS.stat_setEntry_ne _ _ _ _ hEH, fsR, FS.stat_setEntry_ne _ _ _ _ hED,
        fsE, FS.stat_setEntry_self]
  · rw [hrun1, fsH, FS.stat_setEntry_self]
  · refine ⟨⟨env.root, [],
      [⟨commitMessage,
        trackedFiles ((sAfterAssets env s1).fs.setEntry (env.root ++ [".git"]) Entry.dir)
          env.root⟩]⟩, ?_, rfl⟩
    rw [hrun1]
    rfl
  · rw [hrun1]
    exact hpc1

/-- Witness for amended C8 at a concrete input: all requirements and yarn
on PATH, empty target, all commands succeed — the run exits 0, bootstraps
a one-commit repository and never prompts. -/
theorem run_scenarioB_amended_witness :
    (run envFull s0).2 = Res.ok ()
    ∧ (∃ g, (run envFull s0).1.git = some g ∧ g.commits.length = 1)
    ∧ (run envFull s0).1.promptCount = s0.promptCount := by
  have H := run_scenarioB_amended envFull s0 (by decide) rfl (by decide)
    (fun b a => rfl) rfl rfl rfl rfl rfl rfl rfl
  exact ⟨H.1, H.2.2.2.2.2.2.1, H.2.2.2.2.2.2.2⟩

end PlatformStarter
